import Mathlib

/-
Verification of the sonas-client streaming client (src/sonas_client/client.py).

The streaming session (SonasClient.stream_prices, lines 102-145) is embedded as a
pure function from the caller-supplied inputs plus a Script describing what the
environment (HTTP login endpoint, websocket transport, caller-supplied on_message
handler, and the concurrent caller of stop_stream_prices) does, to the ordered
trace of observable events together with the final value of the _stop_streaming
flag.  The credential provider (login / _get_headers, lines 25-41) and the admin
client validation (SonasAdminClient.update_historical, lines 179-264) are embedded
as pure functions as well.
-/

namespace Sonas

/-- One subscription entry: the dict with keys product and term built at
lines 119-123 of client.py, modelled as the pair (product, term). -/
abbrev Subscription := String × String

/-- The subscriptions list built by the nested for loops at lines 117-123:
products is the outer loop, terms is the inner loop (product-major order). -/
def subscriptionsList (products terms : List String) : List Subscription :=
  products.flatMap (fun p => terms.map (fun t => (p, t)))

/-- The constant MAX_PRODUCTS_PER_SUBSCRIPTION = 1000 bound at line 111. -/
def MAX_PRODUCTS_PER_SUBSCRIPTION : Nat := 1000

/-- The slicing loop at lines 125-129, for a positive step m:
for i in range(0, n, m): append(subscriptions[i : i + m]).
Written with the list length as structural fuel so that it computes by
kernel reduction; each iteration takes the next chunk subscriptions[i : i+m],
which for the remaining suffix l is l.take m, and continues on l.drop m. -/
def buildBatchesAux (m : Nat) : Nat → List Subscription → List (List Subscription)
  | _, [] => []
  | 0, _ :: _ => []
  | fuel + 1, x :: xs => (x :: xs).take m :: buildBatchesAux m fuel ((x :: xs).drop m)

/-- The batching step of stream_prices (lines 125-129) for step m ≥ 1:
consecutive chunks of at most m subscriptions, in order. -/
def buildBatches (m : Nat) (l : List Subscription) : List (List Subscription) :=
  buildBatchesAux m l.length l

/-- The failures that the code can hand to on_error (or raise internally):
the exception classes observable in stream_prices.  loginFailed is the
Exception raised at line 35; invalidStatus is websockets.exceptions.InvalidStatus
with the HTTP status of the rejected handshake (caught at line 135);
connectFailure is any other exception raised while opening the connection;
closedOk / closedErr are ConnectionClosedOK / ConnectionClosedError raised by
ws.recv when the peer closes with a normal (1000/1001) resp. non-normal code;
transportErr is any other transport failure; handlerErr is an exception raised
by the caller-supplied on_message handler (it propagates out of the loop). -/
inductive StreamErr
  | loginFailed (body : String)
  | invalidStatus (code : Nat)
  | connectFailure (desc : String)
  | closedOk (code : Nat) (reason : String)
  | closedErr (code : Nat) (reason : String)
  | transportErr (desc : String)
  | handlerErr (payload : String)
  deriving DecidableEq

/-- Observable events of one stream_prices call, in order:
loginRequest is the HTTP POST of login (network activity, line 30), connect is
the successful opening of the websocket (line 113), send is one outbound
SUBSCRIBE message (line 129), recvMsg is one message returned by ws.recv
(line 132), onMessage is the dispatch to the caller handler (line 133), close
is the client-side close performed when the with-block exits, and onError is
the single on_error call of the except clauses (lines 143 and 145). -/
inductive Event
  | loginRequest
  | connect
  | send (batch : List Subscription)
  | recvMsg (payload : String)
  | onMessage (payload : String)
  | close
  | onError (e : StreamErr)
  deriving DecidableEq

/-- What connect (line 113) does: succeeds, raises InvalidStatus carrying an
HTTP status, or raises some other exception. -/
inductive ConnectOutcome
  | ok
  | invalidStatus (code : Nat)
  | fail (desc : String)
  deriving DecidableEq

/-- What one iteration of the receive loop observes from ws.recv plus the
caller handler: a payload (with handlerOk recording whether on_message returned
normally), a close frame with code and reason, or another transport failure. -/
inductive RecvOutcome
  | msg (payload : String) (handlerOk : Bool)
  | closed (code : Nat) (reason : String)
  | fail (desc : String)
  deriving DecidableEq

/-- The environment of one stream_prices call: the cached token at entry
(self._token), the login endpoint response (used only when no token is cached),
the connect outcome, one entry per receive-loop iteration pairing the value of
_stop_streaming observed at that iteration's while-condition check (true once
stop_stream_prices has run) with the recv outcome, whether some ws.send call
at line 129 raises (sendFail = some (k, d): the k-th send, counting from 0,
raises an exception described by d, provided that send happens), and whether
stop_stream_prices is additionally called at a point no executed
while-condition check ever observes — during the connect, during a recv or
send that then raises, or from inside the on_message handler before it raises
(lateStop). -/
structure Script where
  token : Option String
  loginStatus : Nat
  loginBody : String
  loginToken : String
  connect : ConnectOutcome
  steps : List (Bool × RecvOutcome)
  sendFail : Option (Nat × String)
  lateStop : Bool
  deriving DecidableEq

/-- websockets raises ConnectionClosedOK exactly for the normal-closure codes
1000 and 1001; every other close code raises ConnectionClosedError. -/
def isNormalClose (c : Nat) : Bool := c == 1000 || c == 1001

/-- How the receive loop (lines 131-133) ends. stopped: the while condition saw
_stop_streaming = true; raised: an exception escaped recv or on_message;
blocked: the script supplies no further iteration (the Python loop would still
be blocked inside ws.recv). -/
inductive LoopExit
  | stopped
  | raised (e : StreamErr)
  | blocked
  deriving DecidableEq

/-- The receive loop, lines 131-133: while not self._stop_streaming:
data = ws.recv(); on_message(data).  Produces the loop's events and its exit. -/
def receiveLoop : List (Bool × RecvOutcome) → List Event × LoopExit
  | [] => ([], .blocked)
  | (stopNow, r) :: rest =>
    if stopNow then ([], .stopped)
    else
      match r with
      | .msg p handlerOk =>
        if handlerOk then
          (Event.recvMsg p :: Event.onMessage p :: (receiveLoop rest).1,
            (receiveLoop rest).2)
        else ([Event.recvMsg p], .raised (.handlerErr p))
      | .closed c reason =>
        ([], .raised (if isNormalClose c then .closedOk c reason else .closedErr c reason))
      | .fail d => ([], .raised (.transportErr d))

/-- Events that the with-block and except clauses append after the loop:
on stop the with-block closes the socket and the call returns; on an exception
the with-block closes the socket and the except clause calls on_error once;
while blocked nothing further has happened yet. -/
def loopTail : LoopExit → List Event
  | .stopped => [Event.close]
  | .raised e => [Event.close, Event.onError e]
  | .blocked => []

/-- The contribution of the executed while-condition checks to the final value
of self._stop_streaming: the flag was set False at line 110 and only
stop_stream_prices (line 148) sets it True, so an exit through the while
condition means the flag is true.  A stop call that no executed check observes
(during a failing recv, from the handler before it raises, or during the
connect) is the Script.lateStop field, or-ed in where the final flag is
computed. -/
def loopFlag : LoopExit → Bool
  | .stopped => true
  | .raised _ => false
  | .blocked => false

/-- Events of the header acquisition (_get_headers, lines 38-41), evaluated as
the additional_headers argument before the websocket connect: a login HTTP POST
happens exactly when no token is cached. -/
def preEvents (sc : Script) : List Event :=
  match sc.token with
  | some _ => []
  | none => [Event.loginRequest]

/-- The failure of the header acquisition, if any: with no cached token, login
(lines 25-36) raises when the login response status is not 200. -/
def loginFailure (sc : Script) : Option StreamErr :=
  match sc.token with
  | some _ => none
  | none => if sc.loginStatus = 200 then none else some (.loginFailed sc.loginBody)

/-- Outcome of evaluating range(0, n, m) and the slicing loop for an arbitrary
integer step m: Python range raises ValueError on step 0; a negative step with
stop n ≥ 0 gives an empty range, hence no batches; a positive step chunks. -/
inductive BatchingOutcome
  | ok (batches : List (List Subscription))
  | valueError (msg : String)
  deriving DecidableEq

/-- The batching step of lines 124-129 generalized to an arbitrary integer
step m; stream_prices always runs it with m = MAX_PRODUCTS_PER_SUBSCRIPTION. -/
def batchingStep (m : Int) (subs : List Subscription) : BatchingOutcome :=
  if m = 0 then .valueError "range() arg 3 must not be zero"
  else if m < 0 then .ok []
  else .ok (buildBatches m.toNat subs)

/-- The batches the send loop at lines 125-129 actually sends: all of them,
unless the environment makes the k-th ws.send raise (and that send happens,
k < number of batches), in which case exactly the k sends before it completed. -/
def sentBatches (batches : List (List Subscription)) :
    Option (Nat × String) → List (List Subscription)
  | none => batches
  | some (k, _) => if k < batches.length then batches.take k else batches

/-- The exception escaping the send loop, if any: ws.send at line 129 can
raise after a successful handshake (for example when the connection drops
between the connect and the send); the first raising send aborts the loop. -/
def sendError (batches : List (List Subscription)) :
    Option (Nat × String) → Option StreamErr
  | none => none
  | some (k, d) => if k < batches.length then some (.transportErr d) else none

/-- stream_prices, lines 102-145, with the batching limit as a parameter:
sets _stop_streaming = False, acquires headers (possibly logging in), opens the
connection, builds and sends the SUBSCRIBE batches (a send may itself raise),
runs the receive loop, and routes every escaping exception to exactly one
on_error call.  Returns the event trace and the final value of
_stop_streaming, which is true when a while-condition check observed the stop
request or when stop_stream_prices ran after the last executed check
(sc.lateStop). -/
def streamPricesWith (m : Int) (products terms : List String) (sc : Script) :
    List Event × Bool :=
  match loginFailure sc with
  | some e => (preEvents sc ++ [Event.onError e], sc.lateStop)
  | none =>
    match sc.connect with
    | .invalidStatus c =>
      (preEvents sc ++ [Event.onError (.invalidStatus c)], sc.lateStop)
    | .fail d => (preEvents sc ++ [Event.onError (.connectFailure d)], sc.lateStop)
    | .ok =>
      match batchingStep m (subscriptionsList products terms) with
      | .valueError msg =>
        (preEvents sc ++ [Event.connect, Event.close, Event.onError (.transportErr msg)],
          sc.lateStop)
      | .ok batches =>
        match sendError batches sc.sendFail with
        | some e =>
          (preEvents sc ++
              (Event.connect ::
                ((sentBatches batches sc.sendFail).map Event.send ++
                  [Event.close, Event.onError e])),
            sc.lateStop)
        | none =>
          (preEvents sc ++
              (Event.connect ::
                ((sentBatches batches sc.sendFail).map Event.send ++
                  ((receiveLoop sc.steps).1 ++ loopTail (receiveLoop sc.steps).2))),
            loopFlag (receiveLoop sc.steps).2 || sc.lateStop)

/-- stream_prices as written: the batching limit is the hard-coded constant
MAX_PRODUCTS_PER_SUBSCRIPTION = 1000 of line 111. -/
def streamPrices (products terms : List String) (sc : Script) : List Event × Bool :=
  streamPricesWith (MAX_PRODUCTS_PER_SUBSCRIPTION : Nat) products terms sc

/-- The on_message payloads of a trace, in order. -/
def onMessageEvents (t : List Event) : List String :=
  t.filterMap (fun ev => match ev with | .onMessage p => some p | _ => none)

/-- The on_error arguments of a trace, in order. -/
def errorEvents (t : List Event) : List StreamErr :=
  t.filterMap (fun ev => match ev with | .onError e => some e | _ => none)

/-- The single exception that reaches the except clauses of stream_prices for
given inputs and script, if any: a login failure, a connect failure, a send
failure, or the exception that ends the receive loop (a transport failure, a
remote close, or an exception out of the on_message handler). -/
def scriptFailure (products terms : List String) (sc : Script) : Option StreamErr :=
  match loginFailure sc with
  | some e => some e
  | none =>
    match sc.connect with
    | .invalidStatus c => some (.invalidStatus c)
    | .fail d => some (.connectFailure d)
    | .ok =>
      match sendError
          (buildBatches MAX_PRODUCTS_PER_SUBSCRIPTION (subscriptionsList products terms))
          sc.sendFail with
      | some e => some e
      | none =>
        match (receiveLoop sc.steps).2 with
        | .raised e => some e
        | _ => none

/-- The classification performed by the except InvalidStatus clause at
lines 136-142: status 401 is logged as unauthorized, 403 as a permissions /
duplicate-session problem, anything else gets no classifying log line. -/
inductive ConnectErrClass
  | unauthorized
  | forbidden
  | unclassified
  deriving DecidableEq

/-- The if / elif chain on e.response.status_code at lines 136-138. -/
def classifyConnectStatus (c : Nat) : ConnectErrClass :=
  if c = 401 then .unauthorized
  else if c = 403 then .forbidden
  else .unclassified

/-- Iteration entries for a run of n cleanly handled messages:
the stop flag is false at each check and every recv yields a payload that the
handler processes normally. -/
def msgSteps (ms : List String) : List (Bool × RecvOutcome) :=
  ms.map (fun p => (false, RecvOutcome.msg p true))

/-- The loop events generated by cleanly handled messages: each payload is
received and then dispatched to on_message. -/
def msgEvents (ms : List String) : List Event :=
  ms.flatMap (fun p => [Event.recvMsg p, Event.onMessage p])

theorem buildBatchesAux_nil (m fuel : Nat) : buildBatchesAux m fuel [] = [] := by
  cases fuel <;> rfl

theorem buildBatchesAux_flatten (m : Nat) (hm : 1 ≤ m) (fuel : Nat) :
    ∀ l : List Subscription, l.length ≤ fuel → (buildBatchesAux m fuel l).flatten = l := by
  induction fuel with
  | zero =>
    intro l h
    have hl : l = [] := List.length_eq_zero.mp (Nat.le_zero.mp h)
    subst hl
    rfl
  | succ fuel ih =>
    intro l h
    match l with
    | [] => rfl
    | x :: xs =>
      have hlen : ((x :: xs).drop m).length ≤ fuel := by
        simp only [List.length_drop, List.length_cons] at *
        omega
      simp only [buildBatchesAux, List.flatten_cons]
      rw [ih _ hlen, List.take_append_drop]

theorem buildBatchesAux_length (m : Nat) (hm : 1 ≤ m) (fuel : Nat) :
    ∀ l : List Subscription, l.length ≤ fuel →
      (buildBatchesAux m fuel l).length = (l.length + m - 1) / m := by
  induction fuel with
  | zero =>
    intro l h
    have hl : l = [] := List.length_eq_zero.mp (Nat.le_zero.mp h)
    subst hl
    simp only [buildBatchesAux, List.length_nil, Nat.zero_add]
    rw [Nat.div_eq_of_lt (by omega)]
  | succ fuel ih =>
    intro l h
    match l with
    | [] =>
      simp only [buildBatchesAux, List.length_nil, Nat.zero_add]
      rw [Nat.div_eq_of_lt (by omega)]
    | x :: xs =>
      have hlen : ((x :: xs).drop m).length ≤ fuel := by
        simp only [List.length_drop, List.length_cons] at *
        omega
      simp only [buildBatchesAux, List.length_cons]
      rw [ih _ hlen]
      simp only [List.length_drop, List.length_cons]
      rcases le_or_lt m (xs.length + 1) with hc | hc
      · have h1 : xs.length + 1 - m + m - 1 = xs.length := by omega
        have h2 : xs.length + 1 + m - 1 = xs.length + m := by omega
        rw [h1, h2, Nat.add_div_right _ (by omega)]
      · have h1 : xs.length + 1 - m + m - 1 = m - 1 := by omega
        rw [h1, Nat.div_eq_of_lt (by omega)]
        have h2 : (xs.length + 1 + m - 1) / m = 1 :=
          Nat.div_eq_of_lt_le (by omega) (by omega)
        rw [h2]

theorem buildBatchesAux_mem_length (m fuel : Nat) :
    ∀ (l : List Subscription) (b : List Subscription),
      b ∈ buildBatchesAux m fuel l → b.length ≤ m := by
  induction fuel with
  | zero =>
    intro l b hb
    match l with
    | [] => simp [buildBatchesAux] at hb
    | x :: xs => simp [buildBatchesAux] at hb
  | succ fuel ih =>
    intro l b hb
    match l with
    | [] => simp [buildBatchesAux] at hb
    | x :: xs =>
      simp only [buildBatchesAux, List.mem_cons] at hb
      rcases hb with hb | hb
      · subst hb
        simp only [List.length_take]
        omega
      · exact ih _ _ hb

theorem buildBatchesAux_dropLast_length (m : Nat) (hm : 1 ≤ m) (fuel : Nat) :
    ∀ (l : List Subscription) (b : List Subscription), l.length ≤ fuel →
      b ∈ (buildBatchesAux m fuel l).dropLast → b.length = m := by
  induction fuel with
  | zero =>
    intro l b h hb
    have hl : l = [] := List.length_eq_zero.mp (Nat.le_zero.mp h)
    subst hl
    simp [buildBatchesAux] at hb
  | succ fuel ih =>
    intro l b h hb
    match l with
    | [] => simp [buildBatchesAux] at hb
    | x :: xs =>
      have hlen : ((x :: xs).drop m).length ≤ fuel := by
        simp only [List.length_drop, List.length_cons] at *
        omega
      simp only [buildBatchesAux] at hb
      match hrest : buildBatchesAux m fuel ((x :: xs).drop m) with
      | [] => rw [hrest] at hb; simp at hb
      | c :: cs =>
        rw [hrest, List.dropLast_cons₂, List.mem_cons] at hb
        rcases hb with hb | hb
        · subst hb
          have hne : (x :: xs).drop m ≠ [] := by
            intro hcon
            rw [hcon, buildBatchesAux_nil] at hrest
            exact List.noConfusion hrest
          have hgt : m < xs.length + 1 := by
            by_contra hle
            have : (x :: xs).drop m = [] := by
              apply List.eq_nil_of_length_eq_zero
              simp only [List.length_drop, List.length_cons]
              omega
            exact hne this
          simp only [List.length_take, List.length_cons]
          omega
        · rw [← hrest] at hb
          exact ih _ _ hlen hb

theorem length_subscriptionsList (ps ts : List String) :
    (subscriptionsList ps ts).length = ps.length * ts.length := by
  induction ps with
  | nil => simp [subscriptionsList]
  | cons p ps ih =>
    simp only [subscriptionsList, List.flatMap_cons, List.length_append,
      List.length_map, List.length_cons] at *
    rw [ih]
    ring

/-- C1: for non-empty products and terms with cross-product size
N = |products| * |terms| and the code constant M = 1000, the batching step of
stream_prices produces ceil(N/M) = (N + M - 1) / M batches, each of size at
most M, every batch other than the last of size exactly M, and the
concatenation of the batches is exactly the product-major cross-product (so
nothing is duplicated, dropped, or reordered). -/
theorem C1_batching (ps ts : List String) (_hp : ps ≠ []) (_ht : ts ≠ []) :
    (subscriptionsList ps ts).length = ps.length * ts.length ∧
    (buildBatches MAX_PRODUCTS_PER_SUBSCRIPTION (subscriptionsList ps ts)).length =
      (ps.length * ts.length + MAX_PRODUCTS_PER_SUBSCRIPTION - 1) /
        MAX_PRODUCTS_PER_SUBSCRIPTION ∧
    (∀ b ∈ buildBatches MAX_PRODUCTS_PER_SUBSCRIPTION (subscriptionsList ps ts),
      b.length ≤ MAX_PRODUCTS_PER_SUBSCRIPTION) ∧
    (∀ b ∈ (buildBatches MAX_PRODUCTS_PER_SUBSCRIPTION (subscriptionsList ps ts)).dropLast,
      b.length = MAX_PRODUCTS_PER_SUBSCRIPTION) ∧
    (buildBatches MAX_PRODUCTS_PER_SUBSCRIPTION (subscriptionsList ps ts)).flatten =
      subscriptionsList ps ts := by
  have hm : 1 ≤ MAX_PRODUCTS_PER_SUBSCRIPTION := by decide
  refine ⟨length_subscriptionsList ps ts, ?_, ?_, ?_, ?_⟩
  · rw [buildBatches, buildBatchesAux_length _ hm _ _ (Nat.le_refl _),
      length_subscriptionsList]
  · intro b hb
    exact buildBatchesAux_mem_length _ _ _ b hb
  · intro b hb
    exact buildBatchesAux_dropLast_length _ hm _ _ b (Nat.le_refl _) hb
  · exact buildBatchesAux_flatten _ hm _ _ (Nat.le_refl _)

/-- C1 witness: the batching properties instantiated at the spec scenario
products = [BS], terms = [Nov-24, Dec-24]. -/
theorem C1_batching_witness :
    (subscriptionsList ["BS"] ["Nov-24", "Dec-24"]).length = 1 * 2 ∧
    (buildBatches MAX_PRODUCTS_PER_SUBSCRIPTION
        (subscriptionsList ["BS"] ["Nov-24", "Dec-24"])).length =
      (1 * 2 + MAX_PRODUCTS_PER_SUBSCRIPTION - 1) / MAX_PRODUCTS_PER_SUBSCRIPTION ∧
    (∀ b ∈ buildBatches MAX_PRODUCTS_PER_SUBSCRIPTION
        (subscriptionsList ["BS"] ["Nov-24", "Dec-24"]),
      b.length ≤ MAX_PRODUCTS_PER_SUBSCRIPTION) ∧
    (∀ b ∈ (buildBatches MAX_PRODUCTS_PER_SUBSCRIPTION
        (subscriptionsList ["BS"] ["Nov-24", "Dec-24"])).dropLast,
      b.length = MAX_PRODUCTS_PER_SUBSCRIPTION) ∧
    (buildBatches MAX_PRODUCTS_PER_SUBSCRIPTION
        (subscriptionsList ["BS"] ["Nov-24", "Dec-24"])).flatten =
      subscriptionsList ["BS"] ["Nov-24", "Dec-24"] := by
  have h := C1_batching ["BS"] ["Nov-24", "Dec-24"] (by decide) (by decide)
  simpa using h

theorem errorEvents_append (s t : List Event) :
    errorEvents (s ++ t) = errorEvents s ++ errorEvents t :=
  List.filterMap_append s t _

theorem onMessageEvents_append (s t : List Event) :
    onMessageEvents (s ++ t) = onMessageEvents s ++ onMessageEvents t :=
  List.filterMap_append s t _

theorem errorEvents_preEvents (sc : Script) : errorEvents (preEvents sc) = [] := by
  cases h : sc.token <;> simp [preEvents, h, errorEvents]

theorem errorEvents_sends (batches : List (List Subscription)) :
    errorEvents (batches.map Event.send) = [] := by
  induction batches with
  | nil => rfl
  | cons b bs ih => simp [errorEvents, List.filterMap_cons]

theorem errorEvents_receiveLoop (steps : List (Bool × RecvOutcome)) :
    errorEvents (receiveLoop steps).1 = [] := by
  induction steps with
  | nil => rfl
  | cons s rest ih =>
    obtain ⟨stopNow, r⟩ := s
    cases stopNow
    · cases r with
      | msg p handlerOk =>
        cases handlerOk
        · rfl
        · exact ih
      | closed c reason => simp [receiveLoop, errorEvents]
      | fail d => simp [receiveLoop, errorEvents]
    · simp [receiveLoop, errorEvents]

theorem errorEvents_loopTail (ex : LoopExit) :
    errorEvents (loopTail ex) = (match ex with | .raised e => [e] | _ => []) := by
  cases ex <;> rfl

theorem errorEvents_connect_cons (t : List Event) :
    errorEvents (Event.connect :: t) = errorEvents t := rfl

theorem onMessageEvents_connect_cons (t : List Event) :
    onMessageEvents (Event.connect :: t) = onMessageEvents t := rfl

theorem onMessageEvents_closeTail (e : StreamErr) :
    onMessageEvents [Event.close, Event.onError e] = [] := rfl

theorem errorEvents_closeTail (e : StreamErr) :
    errorEvents [Event.close, Event.onError e] = [e] := rfl

theorem onMessageEvents_close : onMessageEvents [Event.close] = [] := rfl

theorem errorEvents_close : errorEvents [Event.close] = [] := rfl

/-- The fixed batching limit evaluates the range slicing on the positive
constant 1000: no ValueError, chunks of size 1000. -/
theorem batchingStep_const (subs : List Subscription) :
    batchingStep (MAX_PRODUCTS_PER_SUBSCRIPTION : Nat) subs =
      .ok (buildBatches MAX_PRODUCTS_PER_SUBSCRIPTION subs) := rfl

/-- Shape of a stream_prices run whose header acquisition uses a cached token,
whose connect succeeds, with no send failure and no late stop call: login is
skipped, the connection opens, the batches are sent in order, then the receive
loop runs and its exit decides the tail. -/
theorem streamPrices_ok_shape (ps ts : List String) (tok lb lt : String)
    (ls : Nat) (steps : List (Bool × RecvOutcome)) :
    streamPrices ps ts ⟨some tok, ls, lb, lt, .ok, steps, none, false⟩ =
      (Event.connect ::
          ((buildBatches MAX_PRODUCTS_PER_SUBSCRIPTION (subscriptionsList ps ts)).map
              Event.send ++
            ((receiveLoop steps).1 ++ loopTail (receiveLoop steps).2)),
        loopFlag (receiveLoop steps).2) := by
  simp [streamPrices, streamPricesWith, loginFailure, preEvents, batchingStep_const,
    sendError, sentBatches]

theorem receiveLoop_msgSteps (ms : List String) (rest : List (Bool × RecvOutcome)) :
    receiveLoop (msgSteps ms ++ rest) =
      (msgEvents ms ++ (receiveLoop rest).1, (receiveLoop rest).2) := by
  induction ms with
  | nil => simp [msgSteps, msgEvents]
  | cons p ms ih =>
    simp only [msgSteps, List.map_cons, List.cons_append, msgEvents,
      List.flatMap_cons] at *
    simp [receiveLoop, ih]

theorem onMessageEvents_msgEvents (ms : List String) :
    onMessageEvents (msgEvents ms) = ms := by
  induction ms with
  | nil => rfl
  | cons p ms ih =>
    simpa [msgEvents, onMessageEvents, List.filterMap_cons, List.flatMap_cons]
      using ih

theorem errorEvents_msgEvents (ms : List String) :
    errorEvents (msgEvents ms) = [] := by
  induction ms with
  | nil => rfl
  | cons p ms ih =>
    simpa [msgEvents, errorEvents, List.filterMap_cons, List.flatMap_cons] using ih

theorem onMessageEvents_sends (batches : List (List Subscription)) :
    onMessageEvents (batches.map Event.send) = [] := by
  induction batches with
  | nil => rfl
  | cons b bs ih => simp [onMessageEvents, List.filterMap_cons]

/-- C9: stream_prices never raises to its caller: the whole body sits in a
try whose except clauses call on_error once, so for every environment script
the trace contains at most one on_error call, and its argument is exactly the
exception that escaped (login failure, connect failure, send failure,
transport failure, remote close, or an exception out of the caller-supplied
on_message handler) — one on_error call when a failure arose, none
otherwise. -/
theorem C9_error_delivery (ps ts : List String) (sc : Script) :
    errorEvents (streamPrices ps ts sc).1 = (scriptFailure ps ts sc).toList ∧
    (errorEvents (streamPrices ps ts sc).1).length ≤ 1 := by
  have hmain : errorEvents (streamPrices ps ts sc).1 =
      (scriptFailure ps ts sc).toList := by
    unfold streamPrices streamPricesWith scriptFailure
    cases hlf : loginFailure sc with
    | some e => rw [errorEvents_append, errorEvents_preEvents]; rfl
    | none =>
      cases hc : sc.connect with
      | invalidStatus c => rw [errorEvents_append, errorEvents_preEvents]; rfl
      | fail d => rw [errorEvents_append, errorEvents_preEvents]; rfl
      | ok =>
        rw [batchingStep_const]
        cases hse : sendError
            (buildBatches MAX_PRODUCTS_PER_SUBSCRIPTION (subscriptionsList ps ts))
            sc.sendFail with
        | some e =>
          simp only [hse]
          rw [errorEvents_append, errorEvents_preEvents, errorEvents_connect_cons,
            errorEvents_append, errorEvents_sends, errorEvents_closeTail]
          rfl
        | none =>
          simp only [hse]
          rw [errorEvents_append, errorEvents_preEvents, errorEvents_connect_cons,
            errorEvents_append, errorEvents_sends, errorEvents_append,
            errorEvents_receiveLoop, errorEvents_loopTail]
          cases hex : (receiveLoop sc.steps).2 <;> rfl
  refine ⟨hmain, ?_⟩
  rw [hmain]
  cases scriptFailure ps ts sc <;> simp

/-- C5: a connect-time handshake rejection with HTTP status 401 produces a
trace whose only event besides the (possible) login POST is a single on_error
call carrying InvalidStatus 401 — in particular no SUBSCRIBE message was sent —
and the except-clause classification of 401 is the unauthorized log branch;
likewise 403 maps to the forbidden/permissions branch. -/
theorem C5_connect_auth (ps ts : List String) (tok lb lt : String) (ls : Nat)
    (steps : List (Bool × RecvOutcome)) (sf : Option (Nat × String)) :
    streamPrices ps ts ⟨some tok, ls, lb, lt, .invalidStatus 401, steps, sf, false⟩ =
      ([Event.onError (.invalidStatus 401)], false) ∧
    streamPrices ps ts ⟨some tok, ls, lb, lt, .invalidStatus 403, steps, sf, false⟩ =
      ([Event.onError (.invalidStatus 403)], false) ∧
    classifyConnectStatus 401 = .unauthorized ∧
    classifyConnectStatus 403 = .forbidden := by
  refine ⟨?_, ?_, rfl, rfl⟩ <;>
    simp [streamPrices, streamPricesWith, loginFailure, preEvents]

/-- C2 (amended): a remote close with code c after n cleanly handled messages
produces exactly the n on_message calls in order, then the with-block closes
the socket and the one failure callback the code has — on_error — receives the
close exception carrying code and reason: ConnectionClosedOK for a
normal-closure code (1000/1001), ConnectionClosedError otherwise.  stream_prices
has no on_close callback, so even a normal closure is surfaced via on_error. -/
theorem C2_close_delivery (ps ts : List String) (tok lb lt : String) (ls : Nat)
    (ms : List String) (c : Nat) (r : String) :
    streamPrices ps ts
        ⟨some tok, ls, lb, lt, .ok, msgSteps ms ++ [(false, RecvOutcome.closed c r)], none, false⟩ =
      (Event.connect ::
          ((buildBatches MAX_PRODUCTS_PER_SUBSCRIPTION (subscriptionsList ps ts)).map
              Event.send ++
            (msgEvents ms ++
              [Event.close,
                Event.onError
                  (if isNormalClose c then StreamErr.closedOk c r
                   else StreamErr.closedErr c r)])),
        false) ∧
    onMessageEvents (streamPrices ps ts
        ⟨some tok, ls, lb, lt, .ok, msgSteps ms ++ [(false, RecvOutcome.closed c r)], none, false⟩).1 =
      ms ∧
    errorEvents (streamPrices ps ts
        ⟨some tok, ls, lb, lt, .ok, msgSteps ms ++ [(false, RecvOutcome.closed c r)], none, false⟩).1 =
      [if isNormalClose c then StreamErr.closedOk c r else StreamErr.closedErr c r] := by
  have hone : receiveLoop [(false, RecvOutcome.closed c r)] =
      ([], .raised (if isNormalClose c then StreamErr.closedOk c r
        else StreamErr.closedErr c r)) := rfl
  have hT := streamPrices_ok_shape ps ts tok lb lt ls
    (msgSteps ms ++ [(false, RecvOutcome.closed c r)])
  rw [receiveLoop_msgSteps, hone] at hT
  simp only [List.append_nil, List.nil_append, loopTail, loopFlag] at hT
  refine ⟨hT, ?_, ?_⟩
  · rw [hT]
    simp only [onMessageEvents_connect_cons, onMessageEvents_append,
      onMessageEvents_sends, onMessageEvents_msgEvents, onMessageEvents_closeTail]
    simp
  · rw [hT]
    simp only [errorEvents_connect_cons, errorEvents_append, errorEvents_sends,
      errorEvents_msgEvents, errorEvents_closeTail]
    simp

/-- Script for the C2 counterexample: cached token, successful connect, one
message, then a remote close with the normal-closure code 1000. -/
def c2Script : Script :=
  ⟨some "tok", 200, "", "", .ok,
    [(false, RecvOutcome.msg "m1" true), (false, RecvOutcome.closed 1000 "done")],
    none, false⟩

/-- C2 counterexample: after one delivered message the remote end closes with
the normal-closure code 1000, and the session reports that closure through
on_error (the last trace event is an on_error call carrying ConnectionClosedOK
1000), contradicting the claim that a normal closure is surfaced via on_close
and not via on_error: stream_prices has no on_close callback and its generic
except clause passes the close exception to on_error. -/
theorem C2_counterexample :
    (streamPrices ["A"] ["T"] c2Script).1 =
      [Event.connect, Event.send [("A", "T")], Event.recvMsg "m1",
        Event.onMessage "m1", Event.close,
        Event.onError (StreamErr.closedOk 1000 "done")] := rfl

/-- C6: once stop_stream_prices has set _stop_streaming, the next
while-condition check terminates the receive loop regardless of what the
transport would deliver next (the entry (true, r) and any continuation rest
are never consumed): the trace contains exactly the messages handled before
the stop became visible, no on_error call, it ends with the client-side close,
and the final flag is true.  At most the one recv already in flight when
stop() ran (the last element of ms) is still delivered after the stop call. -/
theorem C6_stop_semantics (ps ts : List String) (tok lb lt : String) (ls : Nat)
    (ms : List String) (r : RecvOutcome) (rest : List (Bool × RecvOutcome)) :
    streamPrices ps ts ⟨some tok, ls, lb, lt, .ok, msgSteps ms ++ (true, r) :: rest, none, false⟩ =
      (Event.connect ::
          ((buildBatches MAX_PRODUCTS_PER_SUBSCRIPTION (subscriptionsList ps ts)).map
              Event.send ++
            (msgEvents ms ++ [Event.close])),
        true) ∧
    errorEvents (streamPrices ps ts
        ⟨some tok, ls, lb, lt, .ok, msgSteps ms ++ (true, r) :: rest, none, false⟩).1 = [] ∧
    onMessageEvents (streamPrices ps ts
        ⟨some tok, ls, lb, lt, .ok, msgSteps ms ++ (true, r) :: rest, none, false⟩).1 = ms ∧
    (streamPrices ps ts
        ⟨some tok, ls, lb, lt, .ok, msgSteps ms ++ (true, r) :: rest, none, false⟩).1.getLast? =
      some Event.close := by
  have hone : receiveLoop ((true, r) :: rest) = ([], .stopped) := rfl
  have hT := streamPrices_ok_shape ps ts tok lb lt ls (msgSteps ms ++ (true, r) :: rest)
  rw [receiveLoop_msgSteps, hone] at hT
  simp only [List.append_nil, List.nil_append, loopTail, loopFlag] at hT
  refine ⟨hT, ?_, ?_, ?_⟩
  · rw [hT]
    simp only [errorEvents_connect_cons, errorEvents_append, errorEvents_sends,
      errorEvents_msgEvents, errorEvents_close]
    simp
  · rw [hT]
    simp only [onMessageEvents_connect_cons, onMessageEvents_append,
      onMessageEvents_sends, onMessageEvents_msgEvents, onMessageEvents_close]
    simp
  · rw [hT]
    have hrw : Event.connect ::
        ((buildBatches MAX_PRODUCTS_PER_SUBSCRIPTION (subscriptionsList ps ts)).map
            Event.send ++
          (msgEvents ms ++ [Event.close])) =
        (Event.connect ::
          ((buildBatches MAX_PRODUCTS_PER_SUBSCRIPTION (subscriptionsList ps ts)).map
              Event.send ++ msgEvents ms)) ++ [Event.close] := by
      simp
    rw [hrw, List.getLast?_concat]

/-- C8: with empty products or empty terms the cross-product and hence the
batch list are empty, so no SUBSCRIBE message is sent, yet the session still
opens the connection and still enters the receive loop, whose events and exit
alone determine the rest of the trace. -/
theorem C8_empty_inputs (ps ts : List String) (tok lb lt : String) (ls : Nat)
    (steps : List (Bool × RecvOutcome)) (h : ps = [] ∨ ts = []) :
    subscriptionsList ps ts = [] ∧
    buildBatches MAX_PRODUCTS_PER_SUBSCRIPTION (subscriptionsList ps ts) = [] ∧
    streamPrices ps ts ⟨some tok, ls, lb, lt, .ok, steps, none, false⟩ =
      (Event.connect :: ((receiveLoop steps).1 ++ loopTail (receiveLoop steps).2),
        loopFlag (receiveLoop steps).2) := by
  have hsubs : subscriptionsList ps ts = [] := by
    rcases h with h | h <;> subst h <;> simp [subscriptionsList]
  refine ⟨hsubs, ?_, ?_⟩
  · rw [hsubs]; rfl
  · rw [streamPrices_ok_shape, hsubs]
    rfl

/-- C8 witness: empty products with one term; the loop handles one message and
then sees a stop request. -/
theorem C8_empty_inputs_witness :
    subscriptionsList [] ["Dec-24"] = [] ∧
    buildBatches MAX_PRODUCTS_PER_SUBSCRIPTION (subscriptionsList [] ["Dec-24"]) = [] ∧
    streamPrices [] ["Dec-24"]
        ⟨some "tok", 200, "", "", .ok,
          [(false, RecvOutcome.msg "p1" true), (true, RecvOutcome.msg "p2" true)],
          none, false⟩ =
      (Event.connect ::
          ((receiveLoop [(false, RecvOutcome.msg "p1" true),
              (true, RecvOutcome.msg "p2" true)]).1 ++
            loopTail (receiveLoop [(false, RecvOutcome.msg "p1" true),
              (true, RecvOutcome.msg "p2" true)]).2),
        loopFlag (receiveLoop [(false, RecvOutcome.msg "p1" true),
          (true, RecvOutcome.msg "p2" true)]).2) :=
  C8_empty_inputs [] ["Dec-24"] "tok" "" "" 200
    [(false, RecvOutcome.msg "p1" true), (true, RecvOutcome.msg "p2" true)]
    (Or.inl rfl)

theorem receiveLoop_no_stop (steps : List (Bool × RecvOutcome))
    (h : ∀ s ∈ steps, s.1 = false) : (receiveLoop steps).2 ≠ .stopped := by
  induction steps with
  | nil => simp [receiveLoop]
  | cons s rest ih =>
    obtain ⟨stopNow, r⟩ := s
    have hs : stopNow = false := h _ (List.mem_cons_self _ _)
    subst hs
    cases r with
    | msg p handlerOk =>
      cases handlerOk
      · simp [receiveLoop]
      · have := ih (fun s hs => h s (List.mem_cons_of_mem _ hs))
        simpa [receiveLoop] using this
    | closed c reason => simp [receiveLoop]
    | fail d => simp [receiveLoop]

/-- C3 (amended): _stop_streaming is assigned False at the start of
stream_prices (line 110) and the only assignment to True is
stop_stream_prices (line 148); no exit path of stream_prices itself sets it.
Hence at session end the flag is true exactly when stop_stream_prices ran
before the session ended — either observed by a while-condition check (the
stop exit of a reached receive loop, after login, connect and sends all
succeeded) or called after the last executed check (sc.lateStop: during the
connect, during a recv or send that then raised, or from the on_message
handler before it raised, in which case even a terminal-error session ends
with the flag true).  In particular, when stop_stream_prices is never called —
no check observes it and there is no late call — the flag is false at every
exit, including terminal-error exits; and no loop-exhausting-input exit
exists (the while loop ends only through the flag or an exception). -/
theorem C3_stop_flag (ps ts : List String) (sc : Script) :
    ((streamPrices ps ts sc).2 = true ↔
      (sc.lateStop = true ∨
        (loginFailure sc = none ∧ sc.connect = .ok ∧
          sendError
            (buildBatches MAX_PRODUCTS_PER_SUBSCRIPTION (subscriptionsList ps ts))
            sc.sendFail = none ∧
          (receiveLoop sc.steps).2 = .stopped))) ∧
    (sc.lateStop = false → (∀ s ∈ sc.steps, s.1 = false) →
      (streamPrices ps ts sc).2 = false) := by
  have hiff : (streamPrices ps ts sc).2 = true ↔
      (sc.lateStop = true ∨
        (loginFailure sc = none ∧ sc.connect = .ok ∧
          sendError
            (buildBatches MAX_PRODUCTS_PER_SUBSCRIPTION (subscriptionsList ps ts))
            sc.sendFail = none ∧
          (receiveLoop sc.steps).2 = .stopped)) := by
    unfold streamPrices streamPricesWith
    cases hlf : loginFailure sc with
    | some e => simp
    | none =>
      cases hc : sc.connect with
      | invalidStatus c => simp
      | fail d => simp
      | ok =>
        rw [batchingStep_const]
        cases hse : sendError
            (buildBatches MAX_PRODUCTS_PER_SUBSCRIPTION (subscriptionsList ps ts))
            sc.sendFail with
        | some e => simp [hse]
        | none =>
          cases hex : (receiveLoop sc.steps).2 <;> simp [loopFlag, hse, hex]
  refine ⟨hiff, fun hls hns => ?_⟩
  by_contra hcon
  have htrue : (streamPrices ps ts sc).2 = true := by
    cases hval : (streamPrices ps ts sc).2
    · exact absurd hval hcon
    · rfl
  rcases hiff.mp htrue with hl | ⟨_, _, _, hst⟩
  · rw [hls] at hl
    exact Bool.noConfusion hl
  · exact receiveLoop_no_stop sc.steps hns hst

/-- C3 amended witness: a session with no stop request — neither observed by a
check nor late — that dies on a transport error ends with the flag false. -/
theorem C3_stop_flag_witness :
    (streamPrices ["A"] ["T"]
      ⟨some "tok", 200, "", "", .ok, [(false, RecvOutcome.fail "reset")],
        none, false⟩).2 = false :=
  (C3_stop_flag ["A"] ["T"]
      ⟨some "tok", 200, "", "", .ok, [(false, RecvOutcome.fail "reset")],
        none, false⟩).2 rfl (by decide)

/-- Script for the C3 counterexample: cached token, clean connect, the first
recv raises a transport error; stop_stream_prices is never called. -/
def c3Script : Script :=
  ⟨some "tok", 200, "", "", .ok, [(false, RecvOutcome.fail "connection reset")],
    none, false⟩

/-- C3 counterexample: a session that ends through the terminal-error path
(its last trace event is the on_error call for the transport failure) finishes
with _stop_streaming still false, contradicting the claim that the flag is
true when the session ends for every exit path including terminal error.  (The
remaining exit path named by the claim, the loop exhausting its input, does
not exist: the while loop only ends by flag or by exception.) -/
theorem C3_counterexample :
    (streamPrices ["A"] ["T"] c3Script).2 = false ∧
    (streamPrices ["A"] ["T"] c3Script).1.getLast? =
      some (Event.onError (StreamErr.transportErr "connection reset")) := ⟨rfl, rfl⟩

/-- C4 (amended): stream_prices has no configurable max_per_batch — the limit
is the hard-coded constant 1000 — and it performs no validation of the limit:
there is no InvalidConfiguration signal anywhere.  With the slicing step
generalized to an arbitrary integer limit, a negative limit makes
range(0, n, m) empty, silently producing zero batches and no error at all,
and a zero limit raises the built-in ValueError from range() — and only after
the connection has already been opened, since the batching sits inside the
with connect(...) block. -/
theorem C4_no_validation (m : Int) (ps ts : List String) (tok lb lt : String)
    (ls : Nat) (steps : List (Bool × RecvOutcome)) (hm : m < 0) :
    MAX_PRODUCTS_PER_SUBSCRIPTION = 1000 ∧
    batchingStep m (subscriptionsList ps ts) = .ok [] ∧
    streamPricesWith m ps ts ⟨some tok, ls, lb, lt, .ok, steps, none, false⟩ =
      (Event.connect :: ((receiveLoop steps).1 ++ loopTail (receiveLoop steps).2),
        loopFlag (receiveLoop steps).2) ∧
    batchingStep 0 (subscriptionsList ps ts) =
      .valueError "range() arg 3 must not be zero" ∧
    streamPricesWith 0 ps ts ⟨some tok, ls, lb, lt, .ok, steps, none, false⟩ =
      ([Event.connect, Event.close,
        Event.onError (StreamErr.transportErr "range() arg 3 must not be zero")],
        false) := by
  have hb : batchingStep m (subscriptionsList ps ts) = .ok [] := by
    unfold batchingStep
    rw [if_neg (by omega), if_pos hm]
  refine ⟨rfl, hb, ?_, rfl, rfl⟩
  unfold streamPricesWith
  simp [loginFailure, preEvents, hb, sendError, sentBatches]

/-- C4 amended witness: the negative-limit conclusions at limit -1. -/
theorem C4_no_validation_witness :
    MAX_PRODUCTS_PER_SUBSCRIPTION = 1000 ∧
    batchingStep (-1) (subscriptionsList ["A"] ["T"]) = .ok [] ∧
    streamPricesWith (-1) ["A"] ["T"] ⟨some "tok", 200, "", "", .ok, [], none, false⟩ =
      (Event.connect :: ((receiveLoop []).1 ++ loopTail (receiveLoop []).2),
        loopFlag (receiveLoop []).2) ∧
    batchingStep 0 (subscriptionsList ["A"] ["T"]) =
      .valueError "range() arg 3 must not be zero" ∧
    streamPricesWith 0 ["A"] ["T"] ⟨some "tok", 200, "", "", .ok, [], none, false⟩ =
      ([Event.connect, Event.close,
        Event.onError (StreamErr.transportErr "range() arg 3 must not be zero")],
        false) :=
  C4_no_validation (-1) ["A"] ["T"] "tok" "" "" 200 [] (by decide)

/-- Script for the C4 counterexample: cached token, clean connect, no loop
input yet. -/
def c4Script : Script := ⟨some "tok", 200, "", "", .ok, [], none, false⟩

/-- C4 counterexample: running the batching step with the limit generalized to
the non-positive value -1 signals no error whatsoever — the trace is exactly
the successful connection opening, so no InvalidConfiguration (indeed no error
at all) is raised, and the first thing that happens is network activity.  This
refutes the claim that a non-positive limit yields an InvalidConfiguration
error before any network activity. -/
theorem C4_counterexample :
    (streamPricesWith (-1) ["A"] ["T"] c4Script).1 = [Event.connect] ∧
    errorEvents (streamPricesWith (-1) ["A"] ["T"] c4Script).1 = [] := ⟨rfl, rfl⟩

/-- The mutable credential state of a client instance: self._token
(lines 22 and 36). -/
structure ClientState where
  token : Option String
  deriving DecidableEq

/-- The login endpoint response as the code reads it: the HTTP status, the
body text, and the data.token field of the parsed JSON body. -/
structure HttpResponse where
  status : Nat
  text : String
  dataToken : String
  deriving DecidableEq

/-- login, lines 25-36: POST the basic credentials to the token endpoint;
when the status is not 200 raise Exception with the message
Failed to login: body, leaving the cached token untouched (the assignment at
line 36 is never reached); otherwise cache response.json data token. -/
def loginRun (st : ClientState) (resp : HttpResponse) :
    Except String Unit × ClientState :=
  if resp.status ≠ 200 then
    (.error ("Failed to login: " ++ resp.text), st)
  else (.ok (), { token := some resp.dataToken })

/-- _get_headers, lines 38-41: log in when no token is cached, then return the
Authorization header value Bearer token (the Python f-string would render a
still-absent token as the text None, unreachable after a successful login). -/
def getHeadersRun (st : ClientState) (resp : HttpResponse) :
    Except String String × ClientState :=
  match st.token with
  | some t => (.ok ("Bearer " ++ t), st)
  | none =>
    match loginRun st resp with
    | (.error e, st2) => (.error e, st2)
    | (.ok _, st2) => (.ok ("Bearer " ++ st2.token.getD "None"), st2)

/-- C7: a login exchange answered with a non-success status raises an error
carrying the response body and leaves the cached token field unchanged, so a
subsequent header request behaves exactly like a fresh one and retries the
login; a successful exchange caches the token from the response data.token
field and the returned header value is Bearer token. -/
theorem C7_login (st : ClientState) (resp resp2 : HttpResponse) :
    (resp.status ≠ 200 →
      loginRun st resp = (.error ("Failed to login: " ++ resp.text), st)) ∧
    (st.token = none → resp.status ≠ 200 →
      getHeadersRun st resp = (.error ("Failed to login: " ++ resp.text), st) ∧
      (getHeadersRun st resp).2.token = none ∧
      getHeadersRun (getHeadersRun st resp).2 resp2 = getHeadersRun st resp2) ∧
    (st.token = none → resp.status = 200 →
      getHeadersRun st resp =
        (.ok ("Bearer " ++ resp.dataToken), ⟨some resp.dataToken⟩)) := by
  obtain ⟨tk⟩ := st
  refine ⟨fun h => ?_, fun hn h => ?_, fun hn h => ?_⟩
  · simp [loginRun, h]
  · simp only [ClientState.mk.injEq] at hn
    subst hn
    simp [getHeadersRun, loginRun, h]
  · simp only [ClientState.mk.injEq] at hn
    subst hn
    simp [getHeadersRun, loginRun, h]

/-- C7 witness: a 401 login response with body text, then a retry against a
successful 200 response. -/
theorem C7_login_witness :
    ((⟨401, "bad credentials", ""⟩ : HttpResponse).status ≠ 200 →
      loginRun ⟨none⟩ ⟨401, "bad credentials", ""⟩ =
        (.error ("Failed to login: " ++
          (⟨401, "bad credentials", ""⟩ : HttpResponse).text), ⟨none⟩)) ∧
    ((⟨none⟩ : ClientState).token = none →
      (⟨401, "bad credentials", ""⟩ : HttpResponse).status ≠ 200 →
      getHeadersRun ⟨none⟩ ⟨401, "bad credentials", ""⟩ =
        (.error ("Failed to login: " ++
          (⟨401, "bad credentials", ""⟩ : HttpResponse).text), ⟨none⟩) ∧
      (getHeadersRun ⟨none⟩ ⟨401, "bad credentials", ""⟩).2.token = none ∧
      getHeadersRun (getHeadersRun ⟨none⟩ ⟨401, "bad credentials", ""⟩).2
          ⟨200, "ok", "tok123"⟩ =
        getHeadersRun ⟨none⟩ ⟨200, "ok", "tok123"⟩) ∧
    ((⟨none⟩ : ClientState).token = none →
      (⟨401, "bad credentials", ""⟩ : HttpResponse).status = 200 →
      getHeadersRun ⟨none⟩ ⟨401, "bad credentials", ""⟩ =
        (.ok ("Bearer " ++ (⟨401, "bad credentials", ""⟩ : HttpResponse).dataToken),
          ⟨some (⟨401, "bad credentials", ""⟩ : HttpResponse).dataToken⟩)) :=
  C7_login ⟨none⟩ ⟨401, "bad credentials", ""⟩ ⟨200, "ok", "tok123"⟩

/-- A Python runtime value as update_historical inspects it: enough structure
to evaluate the isinstance checks, dict key access, and timestamp
serialization.  A datetime records whether tzinfo is None (naive) together
with its isoformat text; a float keeps its literal text (its numeric value is
never inspected); the remaining shapes only feed type names into error
messages. -/
inductive PyVal
  | pyStr (s : String)
  | pyInt (n : Int)
  | pyFloat (lit : String)
  | pyDatetime (naive : Bool) (iso : String)
  | pyDict (entries : List (String × PyVal))
  | pyList (elems : List PyVal)
  | pyNone

/-- type(x).__name__ for the shapes above. -/
def typeName : PyVal → String
  | .pyStr _ => "str"
  | .pyInt _ => "int"
  | .pyFloat _ => "float"
  | .pyDatetime _ _ => "datetime"
  | .pyDict _ => "dict"
  | .pyList _ => "list"
  | .pyNone => "NoneType"

/-- Python dict access d[k]: dict keys are unique, so the first matching entry
is the value; pyNone stands for the absent case, which the validation guards
with the required-keys check before any access. -/
def lookupKey (entries : List (String × PyVal)) (k : String) : PyVal :=
  match entries.find? (fun kv => kv.1 == k) with
  | some kv => kv.2
  | none => .pyNone

/-- isinstance(x, str). -/
def isStr : PyVal → Bool
  | .pyStr _ => true
  | _ => false

/-- isinstance(x, (int, float)). -/
def isNum : PyVal → Bool
  | .pyInt _ => true
  | .pyFloat _ => true
  | _ => false

/-- isinstance(x, datetime). -/
def isDatetime : PyVal → Bool
  | .pyDatetime _ _ => true
  | _ => false

/-- sorted(required_keys - set(price_dict.keys())) at lines 202-203: the four
required keys in sorted order, keeping those absent from the dict. -/
def missingKeys (entries : List (String × PyVal)) : List String :=
  ["price", "product", "term", "ts"].filter
    (fun k => !(entries.map Prod.fst).contains k)

/-- One serialized price dict as built at lines 245-250. -/
structure SerPrice where
  product : String
  term : String
  price : PyVal
  ts : String

/-- The observable outcome of update_historical up to the network boundary:
a raised TypeError, a raised ValueError, or the PUT request being issued with
the serialized payload. -/
inductive UHOutcome
  | typeError (msg : String)
  | valueError (msg : String)
  | request (payload : List SerPrice)

/-- The per-entry validation of update_historical, lines 195-231, for the
entry at index idx: the entry must be a dict containing the four required
keys, with product and term strings, a numeric price, and a datetime ts; the
checks run in the source order and the first failure raises, with messages
reproducing the code's f-strings. -/
def validateEntry (idx : Nat) (v : PyVal) : Option UHOutcome :=
  match v with
  | .pyDict entries =>
    if missingKeys entries = [] then
      if isStr (lookupKey entries "product") then
        if isStr (lookupKey entries "term") then
          if isNum (lookupKey entries "price") then
            if isDatetime (lookupKey entries "ts") then none
            else some (.typeError ("prices[" ++ toString idx ++
              "][\x27ts\x27] must be a datetime object, got " ++
              typeName (lookupKey entries "ts")))
          else some (.typeError ("prices[" ++ toString idx ++
            "][\x27price\x27] must be a number (int or float), got " ++
            typeName (lookupKey entries "price")))
        else some (.typeError ("prices[" ++ toString idx ++
          "][\x27term\x27] must be a string, got " ++
          typeName (lookupKey entries "term")))
      else some (.typeError ("prices[" ++ toString idx ++
        "][\x27product\x27] must be a string, got " ++
        typeName (lookupKey entries "product")))
    else some (.valueError ("prices[" ++ toString idx ++
      "] is missing required keys: " ++ String.intercalate ", " (missingKeys entries)))
  | _ => some (.typeError ("prices[" ++ toString idx ++ "] must be a dict, got " ++
      typeName v))

/-- The validation loop of lines 195-231 over the whole list, tracking the
enumerate index; returns the first raised error, if any. -/
def validatePrices : Nat → List PyVal → Option UHOutcome
  | _, [] => none
  | idx, v :: rest =>
    match validateEntry idx v with
    | some e => some e
    | none => validatePrices (idx + 1) rest

/-- Serialization of one validated entry, lines 234-251: a naive ts (tzinfo is
None) gets an explicit +00:00 suffix appended to its isoformat text, an aware
ts keeps its isoformat; product and term pass through; float(price) preserves
the numeric value (the conversion to float is not observable here and is kept
as the value itself). -/
def serializeEntry (v : PyVal) : SerPrice :=
  match v with
  | .pyDict entries =>
    { product := match lookupKey entries "product" with | .pyStr s => s | _ => ""
      term := match lookupKey entries "term" with | .pyStr s => s | _ => ""
      price := lookupKey entries "price"
      ts := match lookupKey entries "ts" with
            | .pyDatetime true iso => iso ++ "+00:00"
            | .pyDatetime false iso => iso
            | _ => "" }
  | _ => { product := "", term := "", price := .pyNone, ts := "" }

/-- update_historical, lines 179-259, up to the network boundary: validate the
whole argument first, then serialize every entry and issue the PUT request
with the serialized payload; any validation failure raises before any network
request is made. -/
def update_historical (prices : PyVal) : UHOutcome :=
  match prices with
  | .pyList entries =>
    match validatePrices 0 entries with
    | some err => err
    | none => .request (entries.map serializeEntry)
  | _ => .typeError ("prices must be a list, got " ++ typeName prices)

/-- The claim's well-formedness conditions on one entry, stated from its own
words: the entry is a dict, none of the four required keys is missing, and no
field is wrongly typed. -/
def entryWellFormed (v : PyVal) : Bool :=
  match v with
  | .pyDict entries =>
    (entries.map Prod.fst).contains "product" &&
    (entries.map Prod.fst).contains "term" &&
    (entries.map Prod.fst).contains "price" &&
    (entries.map Prod.fst).contains "ts" &&
    isStr (lookupKey entries "product") && isStr (lookupKey entries "term") &&
    isNum (lookupKey entries "price") && isDatetime (lookupKey entries "ts")
  | _ => false

/-- The claim's well-formedness conditions on the whole argument: a list all
of whose entries are well-formed. -/
def pricesWellFormed (v : PyVal) : Bool :=
  match v with
  | .pyList entries => entries.all entryWellFormed
  | _ => false

theorem missingKeys_eq_nil (entries : List (String × PyVal)) :
    missingKeys entries = [] ↔
      ((entries.map Prod.fst).contains "product" &&
        (entries.map Prod.fst).contains "term" &&
        (entries.map Prod.fst).contains "price" &&
        (entries.map Prod.fst).contains "ts") = true := by
  simp only [missingKeys, List.filter_eq_nil_iff]
  constructor
  · intro h
    have hprice := h "price" (by simp)
    have hproduct := h "product" (by simp)
    have hterm := h "term" (by simp)
    have hts := h "ts" (by simp)
    simp only [Bool.not_eq_true, Bool.not_eq_false'] at hprice hproduct hterm hts
    rw [hproduct, hterm, hprice, hts]
    rfl
  · intro h k hk
    simp only [Bool.and_eq_true] at h
    simp only [List.mem_cons, List.not_mem_nil, or_false] at hk
    rcases hk with rfl | rfl | rfl | rfl
    · rw [h.1.2]; decide
    · rw [h.1.1.1]; decide
    · rw [h.1.1.2]; decide
    · rw [h.2]; decide

theorem validateEntry_none_iff (idx : Nat) (v : PyVal) :
    validateEntry idx v = none ↔ entryWellFormed v = true := by
  cases v with
  | pyDict entries =>
    simp only [validateEntry, entryWellFormed]
    split_ifs with h1 h2 h3 h4 h5
    · have h1c := (missingKeys_eq_nil entries).mp h1
      simp only [Bool.and_eq_true] at h1c
      constructor
      · intro _
        simp only [Bool.and_eq_true]
        exact ⟨⟨⟨⟨⟨⟨⟨h1c.1.1.1, h1c.1.1.2⟩, h1c.1.2⟩, h1c.2⟩, h2⟩, h3⟩, h4⟩, h5⟩
      · intro _
        rfl
    · constructor
      · intro h; exact absurd h (by simp)
      · intro h
        simp only [Bool.and_eq_true] at h
        exact absurd h.2 h5
    · constructor
      · intro h; exact absurd h (by simp)
      · intro h
        simp only [Bool.and_eq_true] at h
        exact absurd h.1.2 h4
    · constructor
      · intro h; exact absurd h (by simp)
      · intro h
        simp only [Bool.and_eq_true] at h
        exact absurd h.1.1.2 h3
    · constructor
      · intro h; exact absurd h (by simp)
      · intro h
        simp only [Bool.and_eq_true] at h
        exact absurd h.1.1.1.2 h2
    · constructor
      · intro h; exact absurd h (by simp)
      · intro h
        simp only [Bool.and_eq_true] at h
        exact absurd ((missingKeys_eq_nil entries).mpr (by
          simp only [Bool.and_eq_true]
          exact ⟨⟨⟨h.1.1.1.1.1.1.1, h.1.1.1.1.1.1.2⟩, h.1.1.1.1.1.2⟩, h.1.1.1.1.2⟩)) h1
  | pyStr s => simp [validateEntry, entryWellFormed]
  | pyInt n => simp [validateEntry, entryWellFormed]
  | pyFloat l => simp [validateEntry, entryWellFormed]
  | pyDatetime n i => simp [validateEntry, entryWellFormed]
  | pyList l => simp [validateEntry, entryWellFormed]
  | pyNone => simp [validateEntry, entryWellFormed]

theorem validateEntry_error_kind (idx : Nat) (v : PyVal) (e : UHOutcome)
    (h : validateEntry idx v = some e) :
    (∃ m, e = .typeError m) ∨ (∃ m, e = .valueError m) := by
  cases v with
  | pyDict entries =>
    simp only [validateEntry] at h
    split_ifs at h
    · injection h with h; subst h; left; exact ⟨_, rfl⟩
    · injection h with h; subst h; left; exact ⟨_, rfl⟩
    · injection h with h; subst h; left; exact ⟨_, rfl⟩
    · injection h with h; subst h; left; exact ⟨_, rfl⟩
    · injection h with h; subst h; right; exact ⟨_, rfl⟩
  | pyStr s =>
    simp only [validateEntry] at h
    injection h with h; subst h; left; exact ⟨_, rfl⟩
  | pyInt n =>
    simp only [validateEntry] at h
    injection h with h; subst h; left; exact ⟨_, rfl⟩
  | pyFloat l =>
    simp only [validateEntry] at h
    injection h with h; subst h; left; exact ⟨_, rfl⟩
  | pyDatetime na i =>
    simp only [validateEntry] at h
    injection h with h; subst h; left; exact ⟨_, rfl⟩
  | pyList l =>
    simp only [validateEntry] at h
    injection h with h; subst h; left; exact ⟨_, rfl⟩
  | pyNone =>
    simp only [validateEntry] at h
    injection h with h; subst h; left; exact ⟨_, rfl⟩

theorem validatePrices_none_iff (entries : List PyVal) :
    ∀ idx, validatePrices idx entries = none ↔
      entries.all entryWellFormed = true := by
  induction entries with
  | nil => intro idx; simp [validatePrices]
  | cons v rest ih =>
    intro idx
    simp only [validatePrices, List.all_cons, Bool.and_eq_true]
    cases hv : validateEntry idx v with
    | some e =>
      constructor
      · intro h; exact absurd h (by simp)
      · intro h
        have hn := (validateEntry_none_iff idx v).mpr h.1
        rw [hn] at hv
        exact absurd hv (by simp)
    | none =>
      have hwf := (validateEntry_none_iff idx v).mp hv
      simp only [hwf, true_and]
      exact ih (idx + 1)

theorem validatePrices_error_kind (entries : List PyVal) :
    ∀ (idx : Nat) (e : UHOutcome), validatePrices idx entries = some e →
      (∃ m, e = .typeError m) ∨ (∃ m, e = .valueError m) := by
  induction entries with
  | nil => intro idx e h; exact absurd h (by simp [validatePrices])
  | cons v rest ih =>
    intro idx e h
    simp only [validatePrices] at h
    cases hv : validateEntry idx v with
    | some e2 =>
      simp only [hv] at h
      injection h with h
      subst h
      exact validateEntry_error_kind idx v _ hv
    | none =>
      simp only [hv] at h
      exact ih (idx + 1) e h

/-- C10: update_historical performs the whole input validation before the
network boundary: whenever the prices argument is not a list, or some entry is
not a dict, is missing one of the required keys product/term/price/ts, or has
a wrongly typed field, the call raises a TypeError or a ValueError and no PUT
request is made; and for a well-formed argument the request is issued with the
serialized entries, where a naive (timezone-unaware) ts is serialized as its
isoformat text with an explicit +00:00 suffix appended. -/
theorem C10_update_historical (v : PyVal) (entries : List (String × PyVal))
    (msgs : List PyVal) (iso : String) :
    (pricesWellFormed v = false →
      ((∃ m, update_historical v = .typeError m) ∨
        (∃ m, update_historical v = .valueError m)) ∧
      ∀ pl, update_historical v ≠ .request pl) ∧
    (pricesWellFormed (.pyList msgs) = true →
      update_historical (.pyList msgs) = .request (msgs.map serializeEntry)) ∧
    (lookupKey entries "ts" = .pyDatetime true iso →
      (serializeEntry (.pyDict entries)).ts = iso ++ "+00:00") := by
  refine ⟨fun hwf => ?_, fun hwf => ?_, fun hts => ?_⟩
  · have herr : (∃ m, update_historical v = .typeError m) ∨
        (∃ m, update_historical v = .valueError m) := by
      cases v with
      | pyList es =>
        simp only [pricesWellFormed] at hwf
        simp only [update_historical]
        cases hv : validatePrices 0 es with
        | some e =>
          rcases validatePrices_error_kind es 0 e hv with ⟨m, rfl⟩ | ⟨m, rfl⟩
          · left; exact ⟨m, rfl⟩
          · right; exact ⟨m, rfl⟩
        | none =>
          have hall := (validatePrices_none_iff es 0).mp hv
          rw [hall] at hwf
          exact absurd hwf (by simp)
      | pyStr s => left; exact ⟨_, rfl⟩
      | pyInt n => left; exact ⟨_, rfl⟩
      | pyFloat l => left; exact ⟨_, rfl⟩
      | pyDatetime na i => left; exact ⟨_, rfl⟩
      | pyDict es => left; exact ⟨_, rfl⟩
      | pyNone => left; exact ⟨_, rfl⟩
    refine ⟨herr, fun pl hreq => ?_⟩
    rcases herr with ⟨m, hm⟩ | ⟨m, hm⟩ <;> rw [hreq] at hm <;>
      exact UHOutcome.noConfusion hm
  · simp only [pricesWellFormed] at hwf
    simp only [update_historical]
    rw [(validatePrices_none_iff msgs 0).mpr hwf]
  · simp [serializeEntry, hts]

/-- Field list of a well-formed price dict used by the C10 witness, with a
naive timestamp. -/
def c10Fields : List (String × PyVal) :=
  [("product", .pyStr "BS"), ("term", .pyStr "Nov-24"),
    ("price", .pyFloat "10.5"), ("ts", .pyDatetime true "2024-11-01T12:00:00")]

/-- C10 witness: a list containing a non-dict entry is rejected without a
request; a well-formed singleton is serialized and sent, its naive ts getting
the +00:00 suffix. -/
theorem C10_update_historical_witness :
    (((∃ m, update_historical (.pyList [.pyInt 3]) = .typeError m) ∨
        (∃ m, update_historical (.pyList [.pyInt 3]) = .valueError m)) ∧
      ∀ pl, update_historical (.pyList [.pyInt 3]) ≠ .request pl) ∧
    update_historical (.pyList [.pyDict c10Fields]) =
      .request ([PyVal.pyDict c10Fields].map serializeEntry) ∧
    (serializeEntry (.pyDict c10Fields)).ts = "2024-11-01T12:00:00" ++ "+00:00" :=
  ⟨(C10_update_historical (.pyList [.pyInt 3]) c10Fields [.pyDict c10Fields]
      "2024-11-01T12:00:00").1 rfl,
    (C10_update_historical (.pyList [.pyInt 3]) c10Fields [.pyDict c10Fields]
      "2024-11-01T12:00:00").2.1 rfl,
    (C10_update_historical (.pyList [.pyInt 3]) c10Fields [.pyDict c10Fields]
      "2024-11-01T12:00:00").2.2 rfl⟩

end Sonas
